import Mathlib

/-!
Shallow embedding of the screenshot-capture pipeline
(`src/screenshots/capturer.js`) of the testcafe repository, together with a
model of the keyed mutual-exclusion queue it relies on.

JavaScript numbers appearing in page geometry are modelled as rationals
(`ℚ`); `Math.floor` is `Int.floor` and `Math.round` is `jsRound` below.
Paths are plain strings; `path.join` is modelled as concatenation with a
`/` separator and `String.prototype.replace` (first occurrence) as
`replaceFirst`.  Image contents and file bytes are opaque and modelled by
natural-number identifiers.
-/

namespace Screenshots

/-- JavaScript `Math.round`: rounds half-way cases toward positive
infinity, i.e. `Math.round x = ⌊x + 1/2⌋`. -/
def jsRound (x : ℚ) : ℤ := ⌊x + 1/2⌋

/-- JavaScript truthiness of an optional string: `undefined`/`null` and
the empty string are falsy, every other string is truthy. -/
def jsTruthyStr : Option String → Bool
  | none => false
  | some s => !(s == "")

/-- Node `path.join` restricted to the two-argument form used by the
capturer: join with a single separator. -/
def joinPath (a b : String) : String := a ++ "/" ++ b

/-- Split a character list at every occurrence of a separator. -/
def splitOnChar (sep : Char) : List Char → List (List Char)
  | [] => [[]]
  | c :: cs =>
      let rest := splitOnChar sep cs
      if c = sep then [] :: rest
      else
        match rest with
        | [] => [[c]]
        | h :: t => (c :: h) :: t

/-- The `/`-separated segments of a path. -/
def pathSegments (p : String) : List String :=
  (splitOnChar '/' p.data).map String.mk

/-- Join a list of strings with a separator. -/
def joinSep (sep : String) : List String → String
  | [] => ""
  | [x] => x
  | x :: y :: rest => x ++ sep ++ joinSep sep (y :: rest)

/-- Node `path.basename`: the part after the last separator. -/
def basename (p : String) : String := (pathSegments p).getLastD p

/-- Node `path.dirname`: everything before the last separator, `.` when
there is no separator. -/
def dirname (p : String) : String :=
  let parts := pathSegments p
  if parts.length ≤ 1 then "." else joinSep "/" parts.dropLast

/-- Replace the first occurrence of a pattern in a character list;
`none` when the pattern does not occur. -/
def replaceFirstAux (pat rep : List Char) : List Char → Option (List Char)
  | [] => if pat = [] then some rep else none
  | c :: cs =>
      if pat.isPrefixOf (c :: cs) then some (rep ++ (c :: cs).drop pat.length)
      else (replaceFirstAux pat rep cs).map (fun r => c :: r)

/-- JavaScript `String.prototype.replace` with a string pattern: replaces
the first occurrence only, and returns the string unchanged when the
pattern does not occur. -/
def replaceFirst (s pat rep : String) : String :=
  match replaceFirstAux pat.data rep.data s.data with
  | none => s
  | some l => String.mk l

/-- Whether a string ends with the given suffix. -/
def strEndsWith (s suffix : String) : Bool := suffix.data.isSuffixOf s.data

/-- Page-geometry snapshot sent by the client
(viewport, document and body dimensions plus device-pixel-ratio). -/
structure PageDimensions where
  innerWidth : ℚ
  innerHeight : ℚ
  documentWidth : ℚ
  documentHeight : ℚ
  bodyWidth : ℚ
  bodyHeight : ℚ
  dpr : ℚ
deriving DecidableEq

/-- Explicit crop rectangle in CSS pixels. -/
structure CropBounds where
  top : ℚ
  left : ℚ
  bottom : ℚ
  right : ℚ
deriving DecidableEq

/-- Crop rectangle after scaling to device pixels. -/
structure DeviceCrop where
  top : ℤ
  left : ℤ
  bottom : ℤ
  right : ℤ
deriving DecidableEq

/-- Client-area size in integer device pixels. -/
structure ClientAreaDimensions where
  width : ℤ
  height : ℤ
deriving DecidableEq

/-- `Capturer._getDimensionWithoutScrollbar` from
`src/screenshots/capturer.js`. -/
def getDimensionWithoutScrollbar (fullDimension documentDimension bodyDimension : ℚ) : ℚ :=
  if bodyDimension > fullDimension then documentDimension
  else if documentDimension > fullDimension then bodyDimension
  else max documentDimension bodyDimension

/-- `Capturer._getCropDimensions` from `src/screenshots/capturer.js`:
`null` when either argument is missing, otherwise each edge is
`Math.round (edge * dpr)`. -/
def getCropDimensions (cropDimensions : Option CropBounds) (pageDimensions : Option PageDimensions) :
    Option DeviceCrop :=
  match cropDimensions, pageDimensions with
  | some cd, some pd =>
      some { top := jsRound (cd.top * pd.dpr)
             left := jsRound (cd.left * pd.dpr)
             bottom := jsRound (cd.bottom * pd.dpr)
             right := jsRound (cd.right * pd.dpr) }
  | _, _ => none

/-- `Capturer._getClientAreaDimensions` from `src/screenshots/capturer.js`. -/
def getClientAreaDimensions (pageDimensions : Option PageDimensions) :
    Option ClientAreaDimensions :=
  match pageDimensions with
  | none => none
  | some pd =>
      some { width := ⌊getDimensionWithoutScrollbar pd.innerWidth pd.documentWidth pd.bodyWidth * pd.dpr⌋
             height := ⌊getDimensionWithoutScrollbar pd.innerHeight pd.documentHeight pd.bodyHeight * pd.dpr⌋ }

/-- Modelled from the spec: `DEFAULT_SCREENSHOT_EXTENSION`
(`src/screenshots/default-extension`, not under `src/`): the system's
default screenshot extension, `png`. -/
def DEFAULT_SCREENSHOT_EXTENSION : String := "png"

/-- Modelled from the spec: `correctFilePath` (`src/utils/correct-file-path`,
not under `src/`): sanitize an explicit path by ensuring a valid image
extension, appending the default screenshot extension when absent. -/
def correctFilePath (path expectedExtension : String) : String :=
  if strEndsWith path ("." ++ expectedExtension) then path
  else path ++ "." ++ expectedExtension

/-- The mutable `data` object of the path-pattern collaborator: the two
counters plus the read-only fields used when building the ledger record
(`parsedUserAgent` stands for `parsedUserAgent.prettyUserAgent`). -/
structure PathPatternData where
  fileIndex : ℕ
  errorFileIndex : ℕ
  parsedUserAgent : String
  quarantineAttempt : ℕ
deriving DecidableEq

/-- The screenshot metadata record pushed onto `testEntry.screenshots`. -/
structure ScreenshotRecord where
  testRunId : ℕ
  screenshotPath : String
  screenshotData : Option ℕ
  thumbnailPath : String
  userAgent : String
  quarantineAttempt : ℕ
  takenOnFail : Bool
deriving DecidableEq

/-- The immutable per-connection configuration of a `Capturer`. -/
structure Capturer where
  enabled : Bool
  baseScreenshotsPath : String
  fullPage : Bool
  thumbnails : Bool
  tempDirectoryPath : String
  autoTakeOnFails : Bool
deriving DecidableEq

/-- The `Capturer` constructor: `this.enabled = !!baseScreenshotsPath`. -/
def Capturer.make (baseScreenshotsPath : Option String) (fullPage thumbnails : Bool)
    (tempDirectoryPath : String) (autoTakeOnFails : Bool) : Capturer :=
  { enabled := jsTruthyStr baseScreenshotsPath
    baseScreenshotsPath := baseScreenshotsPath.getD ""
    fullPage, thumbnails, tempDirectoryPath, autoTakeOnFails }

/-- The destructured options argument of `Capturer._capture`; `none`
models a field left `undefined`. -/
structure CaptureOptions where
  pageDimensions : Option PageDimensions := none
  cropDimensions : Option CropBounds := none
  markSeed : Option ℕ := none
  customPath : Option String := none
  fullPage : Option Bool := none
  thumbnails : Option Bool := none
deriving DecidableEq

/-- Behaviour of the external collaborators during one invocation:
the path-pattern renderer, the queue occupancy seen at enqueue time,
whether the raw capture produced the staging file, the image it wrote,
the cropper's result, and the fields read when building the record. -/
structure CaptureEnv where
  getPath : Bool → PathPatternData → String
  queued : String → Bool
  created : Bool
  rawImage : ℕ
  cropResult : Option ℕ
  testRunId : ℕ
  escapeUserAgent : String → String

/-- Mutable state touched by one capture invocation: the path-pattern
data and the owning test entry's screenshot list. -/
structure CaptureState where
  patternData : PathPatternData
  screenshots : List ScreenshotRecord
deriving DecidableEq

/-- Observable collaborator calls made during one capture invocation, in
program order. -/
inductive CaptureEvent where
  | addWarning (screenshotPath : String)
  | enterQueue (key : String)
  | takeScreenshot (filePath : String) (pageWidth pageHeight : Option ℤ) (fullPage : Bool)
  | statCheck (filePath : String)
  | readPng (filePath : String)
  | cropCall (markSeed : Option ℕ) (clientAreaDimensions : Option ClientAreaDimensions)
      (filePath : String) (cropDimensions : Option DeviceCrop)
  | writePng (filePath : String) (image : ℕ)
  | readFile (filePath : String)
  | makeDir (dir : String)
  | writeFile (filePath : String) (data : ℕ)
  | generateThumbnail (screenshotPath thumbnailPath : String)
deriving DecidableEq

/-- `Capturer._joinWithBaseScreenshotPath`. -/
def joinWithBaseScreenshotPath (c : Capturer) (path : String) : String :=
  joinPath c.baseScreenshotsPath path

/-- `Capturer._incrementFileIndexes`: bump the reason-specific counter. -/
def incrementFileIndexes (forError : Bool) (d : PathPatternData) : PathPatternData :=
  if forError then { d with errorFileIndex := d.errorFileIndex + 1 }
  else { d with fileIndex := d.fileIndex + 1 }

/-- `Capturer._getCustomScreenshotPath`. -/
def getCustomScreenshotPath (c : Capturer) (customPath : String) : String :=
  joinWithBaseScreenshotPath c (correctFilePath customPath DEFAULT_SCREENSHOT_EXTENSION)

/-- `Capturer._getScreenshotPath`: render the pattern with the current
data, then increment the reason-specific counter. -/
def getScreenshotPath (c : Capturer) (env : CaptureEnv) (forError : Bool)
    (d : PathPatternData) : String × PathPatternData :=
  (joinWithBaseScreenshotPath c (env.getPath forError d), incrementFileIndexes forError d)

/-- `Capturer._getThumbnailPath`: sibling under a `thumbnails` directory. -/
def getThumbnailPath (screenshotPath : String) : String :=
  joinPath (joinPath (dirname screenshotPath) "thumbnails") (basename screenshotPath)

/-- The destination path chosen by `_capture` (line 132):
`customPath ? this._getCustomScreenshotPath(customPath) : this._getScreenshotPath(forError)`. -/
def resolvedScreenshotPath (c : Capturer) (env : CaptureEnv) (forError : Bool)
    (opts : CaptureOptions) (d : PathPatternData) : String :=
  if jsTruthyStr opts.customPath then getCustomScreenshotPath c (opts.customPath.getD "")
  else (getScreenshotPath c env forError d).1

/-- The path-pattern data after path resolution: incremented exactly when
no truthy explicit path was supplied. -/
def resolvedPatternData (forError : Bool) (opts : CaptureOptions)
    (d : PathPatternData) : PathPatternData :=
  if jsTruthyStr opts.customPath then d else incrementFileIndexes forError d

/-- The staging path: destination path with the base output directory
prefix replaced by the temporary directory (line 134). -/
def resolvedTempPath (c : Capturer) (env : CaptureEnv) (forError : Bool)
    (opts : CaptureOptions) (d : PathPatternData) : String :=
  replaceFirst (resolvedScreenshotPath c env forError opts d)
    c.baseScreenshotsPath c.tempDirectoryPath

/-- The record pushed onto `testEntry.screenshots` (lines 181-196). -/
def mkScreenshotRecord (env : CaptureEnv) (d : PathPatternData)
    (screenshotPath : String) (screenshotData : Option ℕ)
    (thumbnailPath : String) (forError : Bool) : ScreenshotRecord :=
  { testRunId := env.testRunId
    screenshotPath
    screenshotData
    thumbnailPath
    userAgent := env.escapeUserAgent d.parsedUserAgent
    quarantineAttempt := d.quarantineAttempt
    takenOnFail := forError }

/-- Result of one capture invocation: return value, updated state, and
the collaborator calls it made. -/
structure CaptureResult where
  ret : Option String
  state : CaptureState
  events : List CaptureEvent
deriving DecidableEq

/-- Warning emission of lines 137-138: warn exactly when the destination
path already has a queued or in-flight operation. -/
def warnEventsOf (env : CaptureEnv) (screenshotPath : String) : List CaptureEvent :=
  if env.queued screenshotPath then [.addWarning screenshotPath] else []

/-- Staged-file overwrite of lines 166-167: performed exactly when the
cropping collaborator returned a modified image. -/
def overwriteEventsOf (env : CaptureEnv) (tempPath : String) : List CaptureEvent :=
  match env.cropResult with
  | some image => [.writePng tempPath image]
  | none => []

/-- Publication step of lines 171-178: skipped entirely for error-reason
captures under the auto-take-on-failure flag; otherwise directory
creation, destination write, and optional thumbnail generation. -/
def publishEventsOf (c : Capturer) (forError thumbnails : Bool)
    (screenshotPath thumbnailPath : String) (content : ℕ) : List CaptureEvent :=
  if forError && c.autoTakeOnFails then []
  else
    [.makeDir (dirname screenshotPath), .writeFile screenshotPath content] ++
      (if thumbnails then [.generateThumbnail screenshotPath thumbnailPath] else [])

/-- `Capturer._capture` from `src/screenshots/capturer.js`, with the
queued work inlined at its execution point (the sequential semantics of
one invocation). -/
def capture (c : Capturer) (env : CaptureEnv) (forError : Bool)
    (opts : CaptureOptions) (st : CaptureState) : CaptureResult :=
  if c.enabled = false then
    { ret := none, state := st, events := [] }
  else
    let thumbnails := opts.thumbnails.getD c.thumbnails
    let screenshotPath := resolvedScreenshotPath c env forError opts st.patternData
    let patternData := resolvedPatternData forError opts st.patternData
    let thumbnailPath := getThumbnailPath screenshotPath
    let tempPath := resolvedTempPath c env forError opts st.patternData
    let clientAreaDimensions := getClientAreaDimensions opts.pageDimensions
    let takeEvents : List CaptureEvent :=
      [.enterQueue screenshotPath,
       .takeScreenshot tempPath (clientAreaDimensions.map ClientAreaDimensions.width)
         (clientAreaDimensions.map ClientAreaDimensions.height)
         (opts.fullPage.getD c.fullPage),
       .statCheck tempPath]
    if env.created = false then
      { ret := some screenshotPath
        state := { patternData
                   screenshots := st.screenshots ++
                     [mkScreenshotRecord env patternData screenshotPath none thumbnailPath forError] }
        events := warnEventsOf env screenshotPath ++ takeEvents }
    else
      let cropEvents : List CaptureEvent :=
        [.readPng tempPath,
         .cropCall opts.markSeed clientAreaDimensions tempPath
           (getCropDimensions opts.cropDimensions opts.pageDimensions)]
      let content := env.cropResult.getD env.rawImage
      { ret := some screenshotPath
        state := { patternData
                   screenshots := st.screenshots ++
                     [mkScreenshotRecord env patternData screenshotPath (some content) thumbnailPath forError] }
        events := warnEventsOf env screenshotPath ++ takeEvents ++ cropEvents ++
          overwriteEventsOf env tempPath ++ [.readFile tempPath] ++
          publishEventsOf c forError thumbnails screenshotPath thumbnailPath content }

/-- One element of a sequence of capture invocations on the same
capturer/test entry. -/
structure CaptureCall where
  forError : Bool
  opts : CaptureOptions
  env : CaptureEnv

/-- State transformer of one capture invocation. -/
def captureStep (c : Capturer) (st : CaptureState) (call : CaptureCall) : CaptureState :=
  (capture c call.env call.forError call.opts st).state

/-- Sequential composition of a list of capture invocations. -/
def captureSeq (c : Capturer) (calls : List CaptureCall) (st : CaptureState) : CaptureState :=
  calls.foldl (captureStep c) st

/-- Modelled from the spec: state of the keyed mutual-exclusion queue of
`src/utils/async-queue` (only its call sites are under `src/`): a mapping
from key (fully resolved destination path string) to the FIFO list of
pending-or-in-flight operations, the head being the one allowed to run.
`keyOf` records under which key an operation was enqueued and `started`
whether its work has begun. -/
structure QueueState where
  queues : String → List ℕ
  keyOf : ℕ → Option String
  started : ℕ → Bool

/-- The empty queue. -/
def QueueState.init : QueueState :=
  { queues := fun _ => [], keyOf := fun _ => none, started := fun _ => false }

/-- Modelled from the spec: `isInQueue` of `src/utils/async-queue` — the
key has a pending or in-flight operation. -/
def isInQueue (s : QueueState) (key : String) : Bool := !(s.queues key).isEmpty

/-- Effect of enqueueing a fresh operation under a key. -/
def enqueueOp (s : QueueState) (op : ℕ) (key : String) : QueueState :=
  { queues := fun k => if k = key then s.queues k ++ [op] else s.queues k
    keyOf := fun o => if o = op then some key else s.keyOf o
    started := s.started }

/-- Effect of an operation's work beginning. -/
def startOp (s : QueueState) (op : ℕ) : QueueState :=
  { s with started := fun o => if o = op then true else s.started o }

/-- Effect of an operation's work completing: it is popped from its
key's queue, releasing the key to the next queued operation. -/
def finishOp (s : QueueState) (op : ℕ) (key : String) : QueueState :=
  { s with queues := fun k => if k = key then (s.queues k).tail else s.queues k }

/-- Observable queue events.  The `warned` flag of `enqueue` records
whether the collision warning was emitted for that submission (the caller
checks `isInQueue` immediately before enqueueing, lines 137-140 of
`src/screenshots/capturer.js`). -/
inductive QEvent where
  | enqueue (op : ℕ) (key : String) (warned : Bool)
  | start (op : ℕ) (key : String)
  | finish (op : ℕ) (key : String)
deriving DecidableEq

/-- Modelled from the spec: the interleaving semantics of the keyed queue.
An operation may be enqueued at any time (warning emitted exactly when the
key is occupied); its work may start only when it is at the head of its
key's queue; finishing pops it. -/
inductive QStep : QueueState → QEvent → QueueState → Prop where
  | enqueue (s : QueueState) (op : ℕ) (key : String) (hfresh : s.keyOf op = none) :
      QStep s (.enqueue op key (isInQueue s key)) (enqueueOp s op key)
  | start (s : QueueState) (op : ℕ) (key : String)
      (hhead : (s.queues key).head? = some op) (hns : s.started op = false) :
      QStep s (.start op key) (startOp s op)
  | finish (s : QueueState) (op : ℕ) (key : String)
      (hhead : (s.queues key).head? = some op) (hst : s.started op = true) :
      QStep s (.finish op key) (finishOp s op key)

/-- Finite executions of the keyed queue from the empty state. -/
inductive QTrace : List QEvent → QueueState → Prop where
  | nil : QTrace [] QueueState.init
  | snoc {t : List QEvent} {s : QueueState} {e : QEvent} {s' : QueueState} :
      QTrace t s → QStep s e s' → QTrace (t ++ [e]) s'

/-- Operations enqueued under a given key in a trace, in submission order. -/
def enqueuedIn (t : List QEvent) (key : String) : List ℕ :=
  t.filterMap fun e =>
    match e with
    | .enqueue op k _ => if k = key then some op else none
    | _ => none

/-- All operations enqueued in a trace, in submission order. -/
def enqueuedAll (t : List QEvent) : List ℕ :=
  t.filterMap fun e =>
    match e with
    | .enqueue op _ _ => some op
    | _ => none

/-- Operations whose work finished in a trace. -/
def finishedIn (t : List QEvent) : List ℕ :=
  t.filterMap fun e =>
    match e with
    | .finish op _ => some op
    | _ => none

/-- The client-area dimension rule in the spec's words:
`dim = bodyDim > fullDim ? documentDim : (documentDim > fullDim ? bodyDim : max(documentDim, bodyDim))`. -/
def specDimension (fullDim documentDim bodyDim : ℚ) : ℚ :=
  if bodyDim > fullDim then documentDim
  else if documentDim > fullDim then bodyDim
  else max documentDim bodyDim

/-- A page-geometry snapshot whose only relevant field is the
device-pixel-ratio, for concrete crop-scaling computations. -/
def pdWithDpr (r : ℚ) : PageDimensions :=
  { innerWidth := 0, innerHeight := 0, documentWidth := 0, documentHeight := 0
    bodyWidth := 0, bodyHeight := 0, dpr := r }

/-- Concrete enabled capturer used in closed instances. -/
def cfgW : Capturer := Capturer.make (some "base") false false "tmp" false

/-- Concrete capturer with no base output directory supplied. -/
def cfgOff : Capturer := Capturer.make none false false "tmp" false

/-- Concrete collaborator behaviour: raw capture produces the staging
file, the cropper applies no crop. -/
def envW : CaptureEnv :=
  { getPath := fun _ _ => "s1", queued := fun _ => false, created := true
    rawImage := 7, cropResult := none, testRunId := 0, escapeUserAgent := id }

/-- Concrete collaborator behaviour where the raw capture does not create
the staging file. -/
def envNoFile : CaptureEnv :=
  { getPath := fun _ _ => "s1", queued := fun _ => false, created := false
    rawImage := 7, cropResult := none, testRunId := 0, escapeUserAgent := id }

/-- Concrete initial state: fresh counters, no screenshots. -/
def stW : CaptureState :=
  { patternData := { fileIndex := 0, errorFileIndex := 0, parsedUserAgent := "ua", quarantineAttempt := 1 }
    screenshots := [] }

/-- Concrete capture calls used in closed instances. -/
def callA : CaptureCall := { forError := false, opts := {}, env := envW }

/-- Concrete error-reason capture call. -/
def callE : CaptureCall := { forError := true, opts := {}, env := envW }

/-- Concrete capturer with the auto-take-on-failure flag set. -/
def cfgAuto : Capturer := Capturer.make (some "base") false true "tmp" true

/-- Concrete collaborator behaviour where the cropper returns a modified
image. -/
def envCrop : CaptureEnv := { envW with cropResult := some 9 }

/-- Inductive invariant of the keyed queue: each key's queue holds
exactly its enqueued-but-unfinished operations in submission order,
`keyOf` tracks enqueue events, operation identifiers are never reused,
and every finished operation was enqueued under the key it finished
under. -/
def QueueInv (t : List QEvent) (s : QueueState) : Prop :=
  (∀ key, s.queues key = (enqueuedIn t key).filter fun op => op ∉ finishedIn t) ∧
  (∀ op key, s.keyOf op = some key ↔ op ∈ enqueuedIn t key) ∧
  (enqueuedAll t).Nodup ∧
  (∀ op key, QEvent.finish op key ∈ t → op ∈ enqueuedIn t key)

/-- C7: each client-area dimension (width and height independently)
equals `⌊dpr * d⌋` where `d` is the spec's scrollbar-exclusion rule
(`documentDim` if `bodyDim > fullDim`, else `bodyDim` if
`documentDim > fullDim`, else `max documentDim bodyDim`); in particular
when both body and document dimensions exceed the full window dimension
the document dimension is used. -/
theorem c7_client_area_dimensions :
    (∀ pd : PageDimensions,
      getClientAreaDimensions (some pd) =
        some { width := ⌊pd.dpr * specDimension pd.innerWidth pd.documentWidth pd.bodyWidth⌋
               height := ⌊pd.dpr * specDimension pd.innerHeight pd.documentHeight pd.bodyHeight⌋ }) ∧
    (∀ fullDim documentDim bodyDim : ℚ, bodyDim > fullDim → documentDim > fullDim →
      specDimension fullDim documentDim bodyDim = documentDim) := by
  constructor
  · intro pd
    simp only [getClientAreaDimensions, getDimensionWithoutScrollbar, specDimension, mul_comm]
  · intro fullDim documentDim bodyDim hb _
    simp [specDimension, hb]

/-- Closed instance of `c7_client_area_dimensions`: with
`full = 3, document = 4, body = 5` (both body and document exceed the
full dimension) and `dpr = 3/2`, both client-area dimensions evaluate to
`⌊3/2 * 4⌋ = 6`, and the spec rule picks the document dimension. -/
theorem c7_client_area_dimensions_witness :
    getClientAreaDimensions
        (some { innerWidth := 3, innerHeight := 3, documentWidth := 4, documentHeight := 4
                bodyWidth := 5, bodyHeight := 5, dpr := 3/2 }) = some { width := 6, height := 6 } ∧
    specDimension 3 4 5 = 4 := by
  have h := c7_client_area_dimensions
  constructor
  · rw [h.1 { innerWidth := 3, innerHeight := 3, documentWidth := 4, documentHeight := 4
              bodyWidth := 5, bodyHeight := 5, dpr := 3/2 }]
    norm_num [specDimension]
  · exact h.2 3 4 5 (by norm_num) (by norm_num)

/-- C8: for every supplied crop rectangle and page geometry with
device-pixel-ratio `r`, the scaled rectangle has each of its four edges
equal to `round (edge * r)` where `round` is JavaScript rounding
`⌊x + 1/2⌋`, each edge rounded independently; the concrete instances
exercise rounding both up (`1 * 3/2 → 2`, `5 * 3/2 → 8`) and down
(`1 * 5/4 → 1`, `5 * 5/4 → 6`). -/
theorem c8_crop_rectangle_scaling :
    (∀ (cd : CropBounds) (pd : PageDimensions),
      getCropDimensions (some cd) (some pd) =
        some { top := jsRound (cd.top * pd.dpr), left := jsRound (cd.left * pd.dpr)
               bottom := jsRound (cd.bottom * pd.dpr), right := jsRound (cd.right * pd.dpr) }) ∧
    (∀ x : ℚ, jsRound x = ⌊x + 1/2⌋) ∧
    getCropDimensions (some { top := 1, left := 1, bottom := 2, right := 5 })
        (some (pdWithDpr (3/2))) = some { top := 2, left := 2, bottom := 3, right := 8 } ∧
    getCropDimensions (some { top := 1, left := 1, bottom := 2, right := 5 })
        (some (pdWithDpr (5/4))) = some { top := 1, left := 1, bottom := 3, right := 6 } := by
  refine ⟨fun cd pd => rfl, fun x => rfl, ?_, ?_⟩
  · simp only [getCropDimensions, pdWithDpr, jsRound]
    norm_num
  · simp only [getCropDimensions, pdWithDpr, jsRound]
    norm_num

/-- C10: when the crop rectangle or the page-geometry snapshot is absent
the scaled crop rectangle is `null`, and in the full pipeline an explicit
crop rectangle supplied without page geometry reaches the cropping
collaborator as a `null` crop rectangle (silently ignored, not applied
unscaled and not rejected). -/
theorem c10_crop_needs_geometry :
    (∀ cd, getCropDimensions cd none = none) ∧
    (∀ pd, getCropDimensions none pd = none) ∧
    (∀ (c : Capturer) (env : CaptureEnv) (forError : Bool) (opts : CaptureOptions)
        (st : CaptureState),
      c.enabled = true → env.created = true → opts.pageDimensions = none →
      CaptureEvent.cropCall opts.markSeed none
          (resolvedTempPath c env forError opts st.patternData) none ∈
        (capture c env forError opts st).events) := by
  refine ⟨fun cd => by cases cd <;> rfl, fun pd => rfl, ?_⟩
  intro c env forError opts st hen hcr hpd
  simp only [capture, hen, Bool.true_eq_false, if_false, hcr, hpd,
    getClientAreaDimensions, getCropDimensions]
  cases henq : env.queued (resolvedScreenshotPath c env forError opts st.patternData) <;>
    cases opts.cropDimensions <;> simp [resolvedTempPath]

/-- The path-pattern data after one invocation: incremented exactly when
the capturer is enabled and no truthy explicit path was supplied. -/
theorem capture_patternData (c : Capturer) (env : CaptureEnv) (forError : Bool)
    (opts : CaptureOptions) (st : CaptureState) :
    (capture c env forError opts st).state.patternData =
      if c.enabled = true then resolvedPatternData forError opts st.patternData
      else st.patternData := by
  cases h : c.enabled
  · simp [capture, h]
  · cases hc : env.created <;> simp [capture, h, hc]

/-- Effect of one enabled, non-explicit-path invocation on the two
counters, for any reason and any collaborator behaviour. -/
theorem capture_counters (c : Capturer) (env : CaptureEnv) (forError : Bool)
    (opts : CaptureOptions) (st : CaptureState)
    (hen : c.enabled = true) (hcp : jsTruthyStr opts.customPath = false) :
    (capture c env forError opts st).state.patternData.fileIndex =
        st.patternData.fileIndex + (if forError then 0 else 1) ∧
    (capture c env forError opts st).state.patternData.errorFileIndex =
        st.patternData.errorFileIndex + (if forError then 1 else 0) := by
  rw [capture_patternData]
  simp only [hen, if_true]
  cases forError <;> simp [resolvedPatternData, hcp, incrementFileIndexes]

/-- C2: an enabled capture invocation without an explicit path increments
exactly the reason-specific counter by exactly one, regardless of the
outcome of the rest of the pipeline; hence a sequence of K normal-reason
and M error-reason such captures advances `fileIndex` by exactly K and
`errorFileIndex` by exactly M. -/
theorem c2_reason_specific_counters :
    (∀ (c : Capturer) (env : CaptureEnv) (forError : Bool) (opts : CaptureOptions)
        (st : CaptureState),
      c.enabled = true → jsTruthyStr opts.customPath = false →
      (capture c env forError opts st).state.patternData.fileIndex =
          st.patternData.fileIndex + (if forError then 0 else 1) ∧
      (capture c env forError opts st).state.patternData.errorFileIndex =
          st.patternData.errorFileIndex + (if forError then 1 else 0)) ∧
    (∀ (c : Capturer) (calls : List CaptureCall) (st : CaptureState),
      c.enabled = true →
      (∀ call ∈ calls, jsTruthyStr call.opts.customPath = false) →
      (captureSeq c calls st).patternData.fileIndex =
          st.patternData.fileIndex + (calls.filter fun call => !call.forError).length ∧
      (captureSeq c calls st).patternData.errorFileIndex =
          st.patternData.errorFileIndex + (calls.filter fun call => call.forError).length) := by
  refine ⟨fun c env forError opts st hen hcp => capture_counters c env forError opts st hen hcp, ?_⟩
  intro c calls st hen hall
  induction calls generalizing st with
  | nil => simp [captureSeq]
  | cons call rest ih =>
      have hhead := capture_counters c call.env call.forError call.opts st hen
        (hall call (List.mem_cons_self call rest))
      have htail := ih (captureStep c st call) fun x hx => hall x (List.mem_cons_of_mem call hx)
      have hseq : captureSeq c (call :: rest) st = captureSeq c rest (captureStep c st call) := rfl
      rw [hseq]
      rcases htail with ⟨ht1, ht2⟩
      rcases hhead with ⟨hh1, hh2⟩
      constructor
      · rw [ht1]
        show (capture c call.env call.forError call.opts st).state.patternData.fileIndex + _ = _
        rw [hh1]
        cases hf : call.forError <;> simp [List.filter_cons, hf] <;> omega
      · rw [ht2]
        show (capture c call.env call.forError call.opts st).state.patternData.errorFileIndex + _ = _
        rw [hh2]
        cases hf : call.forError <;> simp [List.filter_cons, hf] <;> omega

/-- Closed instance of `c2_reason_specific_counters`: two action captures
and one error capture advance `fileIndex` to 2 and `errorFileIndex` to 1. -/
theorem c2_reason_specific_counters_witness :
    cfgW.enabled = true ∧
    (captureSeq cfgW [callA, callE, callA] stW).patternData.fileIndex = 2 ∧
    (captureSeq cfgW [callA, callE, callA] stW).patternData.errorFileIndex = 1 := by
  have h := c2_reason_specific_counters.2 cfgW [callA, callE, callA] stW (by decide)
    (by intro call hc; fin_cases hc <;> decide)
  exact ⟨by decide, h.1.trans (by decide), h.2.trans (by decide)⟩

/-- C5: a capture invocation on a disabled capturer returns `null`
immediately with no queue interaction, no collaborator call, no counter
change and no appended record; an enabled invocation appends exactly one
record. -/
theorem c5_disabled_returns_null :
    ∀ (c : Capturer) (env : CaptureEnv) (forError : Bool) (opts : CaptureOptions)
      (st : CaptureState),
    (c.enabled = false →
      capture c env forError opts st = { ret := none, state := st, events := [] }) ∧
    (c.enabled = true →
      ∃ rec, (capture c env forError opts st).state.screenshots = st.screenshots ++ [rec]) := by
  intro c env forError opts st
  constructor
  · intro h
    simp [capture, h]
  · intro h
    cases hc : env.created
    · exact ⟨mkScreenshotRecord env (resolvedPatternData forError opts st.patternData)
        (resolvedScreenshotPath c env forError opts st.patternData) none
        (getThumbnailPath (resolvedScreenshotPath c env forError opts st.patternData)) forError,
        by simp [capture, h, hc]⟩
    · exact ⟨mkScreenshotRecord env (resolvedPatternData forError opts st.patternData)
        (resolvedScreenshotPath c env forError opts st.patternData)
        (some (env.cropResult.getD env.rawImage))
        (getThumbnailPath (resolvedScreenshotPath c env forError opts st.patternData)) forError,
        by simp [capture, h, hc]⟩

/-- Closed instance of `c5_disabled_returns_null`: with no base output
directory the invocation is a no-op returning `none`; on the enabled
capturer exactly one record is appended. -/
theorem c5_disabled_returns_null_witness :
    capture cfgOff envW false {} stW = { ret := none, state := stW, events := [] } ∧
    ∃ rec, (capture cfgW envW false {} stW).state.screenshots = stW.screenshots ++ [rec] := by
  exact ⟨(c5_disabled_returns_null cfgOff envW false {} stW).1 (by decide),
    (c5_disabled_returns_null cfgW envW false {} stW).2 (by decide)⟩

/-- Closed instance of `c10_crop_needs_geometry`: an explicit crop
rectangle without page geometry reaches the cropping collaborator as a
`null` crop rectangle. -/
theorem c10_crop_needs_geometry_witness :
    CaptureEvent.cropCall none none "tmp/s1" none ∈
      (capture cfgW envW false { cropDimensions := some { top := 1, left := 2, bottom := 3, right := 4 } } stW).events := by
  have h := c10_crop_needs_geometry.2.2 cfgW envW false
    { cropDimensions := some { top := 1, left := 2, bottom := 3, right := 4 } } stW
    (by decide) (by decide) rfl
  exact h

/-- C3: when the raw-capture collaborator does not create the staging
file, capture still returns the resolved destination path, none of the
crop, final-write (or staging overwrite) or thumbnail collaborators is
invoked, and a record is still appended whose bytes payload is
`undefined`. -/
theorem c3_silent_raw_capture_failure (c : Capturer) (env : CaptureEnv) (forError : Bool)
    (opts : CaptureOptions) (st : CaptureState)
    (hen : c.enabled = true) (hcr : env.created = false) :
    (capture c env forError opts st).ret =
        some (resolvedScreenshotPath c env forError opts st.patternData) ∧
    (∀ m cad p crop, CaptureEvent.cropCall m cad p crop ∉ (capture c env forError opts st).events) ∧
    (∀ p d, CaptureEvent.writeFile p d ∉ (capture c env forError opts st).events) ∧
    (∀ p img, CaptureEvent.writePng p img ∉ (capture c env forError opts st).events) ∧
    (∀ sp tp, CaptureEvent.generateThumbnail sp tp ∉ (capture c env forError opts st).events) ∧
    ∃ rec, (capture c env forError opts st).state.screenshots = st.screenshots ++ [rec] ∧
      rec.screenshotData = none := by
  have hev : capture c env forError opts st =
      { ret := some (resolvedScreenshotPath c env forError opts st.patternData)
        state := { patternData := resolvedPatternData forError opts st.patternData
                   screenshots := st.screenshots ++
                     [mkScreenshotRecord env (resolvedPatternData forError opts st.patternData)
                        (resolvedScreenshotPath c env forError opts st.patternData) none
                        (getThumbnailPath (resolvedScreenshotPath c env forError opts st.patternData))
                        forError] }
        events :=
          warnEventsOf env (resolvedScreenshotPath c env forError opts st.patternData) ++
          [CaptureEvent.enterQueue (resolvedScreenshotPath c env forError opts st.patternData),
           CaptureEvent.takeScreenshot (resolvedTempPath c env forError opts st.patternData)
             ((getClientAreaDimensions opts.pageDimensions).map ClientAreaDimensions.width)
             ((getClientAreaDimensions opts.pageDimensions).map ClientAreaDimensions.height)
             (opts.fullPage.getD c.fullPage),
           CaptureEvent.statCheck (resolvedTempPath c env forError opts st.patternData)] } := by
    simp [capture, hen, hcr]
  rw [hev]
  refine ⟨rfl, ?_, ?_, ?_, ?_, ⟨_, rfl, rfl⟩⟩ <;>
    { intro a b
      try intro a' b'
      cases hq : env.queued (resolvedScreenshotPath c env forError opts st.patternData) <;>
        simp [warnEventsOf, hq] }

/-- Closed instance of `c3_silent_raw_capture_failure`: the staging file
is absent, yet the destination path is returned, no cropping or write or
thumbnail call happens, and the appended record has no bytes. -/
theorem c3_silent_raw_capture_failure_witness :
    (capture cfgW envNoFile false {} stW).ret = some "base/s1" ∧
    CaptureEvent.cropCall none none "tmp/s1" none ∉ (capture cfgW envNoFile false {} stW).events ∧
    CaptureEvent.writeFile "base/s1" 7 ∉ (capture cfgW envNoFile false {} stW).events ∧
    CaptureEvent.generateThumbnail "base/s1" "base/thumbnails/s1" ∉
      (capture cfgW envNoFile false {} stW).events ∧
    ∃ rec, (capture cfgW envNoFile false {} stW).state.screenshots = stW.screenshots ++ [rec] ∧
      rec.screenshotData = none := by
  have h := c3_silent_raw_capture_failure cfgW envNoFile false {} stW (by decide) (by decide)
  exact ⟨by rw [h.1]; decide, h.2.1 none none "tmp/s1" none, h.2.2.1 "base/s1" 7,
    h.2.2.2.2.1 "base/s1" "base/thumbnails/s1", h.2.2.2.2.2⟩

/-- C4: an enabled error-reason capture with the auto-take-on-failure
flag set never writes the destination file (no directory creation, no
write) and never generates a thumbnail, yet the appended record carries
the in-memory bytes read back from the staging file. -/
theorem c4_auto_take_on_fails_suppresses_publish (c : Capturer) (env : CaptureEnv)
    (opts : CaptureOptions) (st : CaptureState)
    (hen : c.enabled = true) (hauto : c.autoTakeOnFails = true) (hcr : env.created = true) :
    (∀ p d, CaptureEvent.writeFile p d ∉ (capture c env true opts st).events) ∧
    (∀ dir, CaptureEvent.makeDir dir ∉ (capture c env true opts st).events) ∧
    (∀ sp tp, CaptureEvent.generateThumbnail sp tp ∉ (capture c env true opts st).events) ∧
    ∃ rec, (capture c env true opts st).state.screenshots = st.screenshots ++ [rec] ∧
      rec.screenshotData = some (env.cropResult.getD env.rawImage) := by
  have hev : (capture c env true opts st).events =
      warnEventsOf env (resolvedScreenshotPath c env true opts st.patternData) ++
      [CaptureEvent.enterQueue (resolvedScreenshotPath c env true opts st.patternData),
       CaptureEvent.takeScreenshot (resolvedTempPath c env true opts st.patternData)
         ((getClientAreaDimensions opts.pageDimensions).map ClientAreaDimensions.width)
         ((getClientAreaDimensions opts.pageDimensions).map ClientAreaDimensions.height)
         (opts.fullPage.getD c.fullPage),
       CaptureEvent.statCheck (resolvedTempPath c env true opts st.patternData),
       CaptureEvent.readPng (resolvedTempPath c env true opts st.patternData),
       CaptureEvent.cropCall opts.markSeed (getClientAreaDimensions opts.pageDimensions)
         (resolvedTempPath c env true opts st.patternData)
         (getCropDimensions opts.cropDimensions opts.pageDimensions)] ++
      overwriteEventsOf env (resolvedTempPath c env true opts st.patternData) ++
      [CaptureEvent.readFile (resolvedTempPath c env true opts st.patternData)] := by
    simp [capture, hen, hcr, publishEventsOf, hauto]
  refine ⟨?_, ?_, ?_, ?_⟩
  · intro p d
    rw [hev]
    cases hq : env.queued (resolvedScreenshotPath c env true opts st.patternData) <;>
      cases hc : env.cropResult <;> simp [warnEventsOf, overwriteEventsOf, hq, hc]
  · intro dir
    rw [hev]
    cases hq : env.queued (resolvedScreenshotPath c env true opts st.patternData) <;>
      cases hc : env.cropResult <;> simp [warnEventsOf, overwriteEventsOf, hq, hc]
  · intro sp tp
    rw [hev]
    cases hq : env.queued (resolvedScreenshotPath c env true opts st.patternData) <;>
      cases hc : env.cropResult <;> simp [warnEventsOf, overwriteEventsOf, hq, hc]
  · exact ⟨mkScreenshotRecord env (resolvedPatternData true opts st.patternData)
      (resolvedScreenshotPath c env true opts st.patternData)
      (some (env.cropResult.getD env.rawImage))
      (getThumbnailPath (resolvedScreenshotPath c env true opts st.patternData)) true,
      by simp [capture, hen, hcr], rfl⟩

/-- Closed instance of `c4_auto_take_on_fails_suppresses_publish`: the
error capture neither writes `base/s1` nor generates a thumbnail, and
the record keeps the staged bytes. -/
theorem c4_auto_take_on_fails_suppresses_publish_witness :
    CaptureEvent.writeFile "base/s1" 7 ∉ (capture cfgAuto envW true {} stW).events ∧
    CaptureEvent.makeDir "base" ∉ (capture cfgAuto envW true {} stW).events ∧
    CaptureEvent.generateThumbnail "base/s1" "base/thumbnails/s1" ∉
      (capture cfgAuto envW true {} stW).events ∧
    ∃ rec, (capture cfgAuto envW true {} stW).state.screenshots = stW.screenshots ++ [rec] ∧
      rec.screenshotData = some 7 := by
  have h := c4_auto_take_on_fails_suppresses_publish cfgAuto envW {} stW
    (by decide) (by decide) (by decide)
  exact ⟨h.1 "base/s1" 7, h.2.1 "base", h.2.2.1 "base/s1" "base/thumbnails/s1", h.2.2.2⟩

/-- C9: an enabled capture with a truthy explicit destination path leaves
both counters (indeed the whole path-pattern data) unchanged, and
resolves to the explicit path joined onto the base output directory after
extension correction, which appends the default screenshot extension
exactly when the explicit path lacks one. -/
theorem c9_explicit_path_no_counting (c : Capturer) (env : CaptureEnv) (forError : Bool)
    (opts : CaptureOptions) (st : CaptureState) (p : String)
    (hen : c.enabled = true) (hcp : opts.customPath = some p) (hne : (p == "") = false) :
    (capture c env forError opts st).state.patternData = st.patternData ∧
    (capture c env forError opts st).ret =
      some (joinPath c.baseScreenshotsPath (correctFilePath p DEFAULT_SCREENSHOT_EXTENSION)) ∧
    (strEndsWith p ("." ++ DEFAULT_SCREENSHOT_EXTENSION) = false →
      correctFilePath p DEFAULT_SCREENSHOT_EXTENSION = p ++ "." ++ DEFAULT_SCREENSHOT_EXTENSION) := by
  have htruthy : jsTruthyStr opts.customPath = true := by
    rw [hcp]
    simp [jsTruthyStr, hne]
  refine ⟨?_, ?_, ?_⟩
  · rw [capture_patternData]
    simp [hen, resolvedPatternData, htruthy]
  · have hret : (capture c env forError opts st).ret =
        some (resolvedScreenshotPath c env forError opts st.patternData) := by
      cases hc : env.created <;> simp [capture, hen, hc]
    rw [hret]
    have htruthy' : jsTruthyStr (some p) = true := by rw [← hcp]; exact htruthy
    simp [resolvedScreenshotPath, hcp, htruthy', getCustomScreenshotPath,
      joinWithBaseScreenshotPath]
  · intro hext
    simp [correctFilePath, hext]

/-- Closed instance of `c9_explicit_path_no_counting` at the spec's
example: explicit path `shot` resolves under `shot.png`, with no counter
change. -/
theorem c9_explicit_path_no_counting_witness :
    (capture cfgW envW false { customPath := some "shot" } stW).state.patternData =
      stW.patternData ∧
    (capture cfgW envW false { customPath := some "shot" } stW).ret = some "base/shot.png" ∧
    correctFilePath "shot" DEFAULT_SCREENSHOT_EXTENSION = "shot.png" := by
  have h := c9_explicit_path_no_counting cfgW envW false { customPath := some "shot" } stW "shot"
    (by decide) rfl (by decide)
  exact ⟨h.1, by rw [h.2.1]; decide, (h.2.2 (by decide)).trans (by decide)⟩

/-- C6 counterexample: the claim that the cropping collaborator is
invoked only when a crop rectangle or a marker seed was supplied is
false — in a run where neither was supplied (and the staging file
exists), `cropScreenshot` is still invoked (with null crop rectangle and
marker seed). -/
theorem c6_crop_only_when_supplied_counterexample :
    ({} : CaptureOptions).cropDimensions = none ∧
    ({} : CaptureOptions).markSeed = none ∧
    CaptureEvent.cropCall none none "tmp/s1" none ∈ (capture cfgW envW false {} stW).events := by
  refine ⟨rfl, rfl, ?_⟩
  decide

/-- C6 (amended): for every enabled capture invocation whose staging file
exists, the cropping collaborator is invoked — unconditionally, with the
supplied marker seed and the scaled crop rectangle (null when the
rectangle or geometry is absent) — and when it returns a modified image
the staged file is overwritten with that image before the final bytes are
read back, which then form the record's payload. -/
theorem c6_crop_collaborator_unconditional (c : Capturer) (env : CaptureEnv) (forError : Bool)
    (opts : CaptureOptions) (st : CaptureState)
    (hen : c.enabled = true) (hcr : env.created = true) :
    (∃ pre post, (capture c env forError opts st).events =
      pre ++ CaptureEvent.cropCall opts.markSeed (getClientAreaDimensions opts.pageDimensions)
          (resolvedTempPath c env forError opts st.patternData)
          (getCropDimensions opts.cropDimensions opts.pageDimensions) :: post) ∧
    (∀ img, env.cropResult = some img →
      (∃ pre post, (capture c env forError opts st).events =
        pre ++ CaptureEvent.cropCall opts.markSeed (getClientAreaDimensions opts.pageDimensions)
            (resolvedTempPath c env forError opts st.patternData)
            (getCropDimensions opts.cropDimensions opts.pageDimensions) ::
          CaptureEvent.writePng (resolvedTempPath c env forError opts st.patternData) img ::
          CaptureEvent.readFile (resolvedTempPath c env forError opts st.patternData) :: post) ∧
      ∃ rec, (capture c env forError opts st).state.screenshots = st.screenshots ++ [rec] ∧
        rec.screenshotData = some img) := by
  constructor
  · refine ⟨warnEventsOf env (resolvedScreenshotPath c env forError opts st.patternData) ++
      [CaptureEvent.enterQueue (resolvedScreenshotPath c env forError opts st.patternData),
       CaptureEvent.takeScreenshot (resolvedTempPath c env forError opts st.patternData)
         ((getClientAreaDimensions opts.pageDimensions).map ClientAreaDimensions.width)
         ((getClientAreaDimensions opts.pageDimensions).map ClientAreaDimensions.height)
         (opts.fullPage.getD c.fullPage),
       CaptureEvent.statCheck (resolvedTempPath c env forError opts st.patternData),
       CaptureEvent.readPng (resolvedTempPath c env forError opts st.patternData)],
      overwriteEventsOf env (resolvedTempPath c env forError opts st.patternData) ++
        CaptureEvent.readFile (resolvedTempPath c env forError opts st.patternData) ::
        publishEventsOf c forError (opts.thumbnails.getD c.thumbnails)
          (resolvedScreenshotPath c env forError opts st.patternData)
          (getThumbnailPath (resolvedScreenshotPath c env forError opts st.patternData))
          (env.cropResult.getD env.rawImage), ?_⟩
    simp [capture, hen, hcr]
  · intro img himg
    constructor
    · refine ⟨warnEventsOf env (resolvedScreenshotPath c env forError opts st.patternData) ++
        [CaptureEvent.enterQueue (resolvedScreenshotPath c env forError opts st.patternData),
         CaptureEvent.takeScreenshot (resolvedTempPath c env forError opts st.patternData)
           ((getClientAreaDimensions opts.pageDimensions).map ClientAreaDimensions.width)
           ((getClientAreaDimensions opts.pageDimensions).map ClientAreaDimensions.height)
           (opts.fullPage.getD c.fullPage),
         CaptureEvent.statCheck (resolvedTempPath c env forError opts st.patternData),
         CaptureEvent.readPng (resolvedTempPath c env forError opts st.patternData)],
        publishEventsOf c forError (opts.thumbnails.getD c.thumbnails)
          (resolvedScreenshotPath c env forError opts st.patternData)
          (getThumbnailPath (resolvedScreenshotPath c env forError opts st.patternData)) img, ?_⟩
      simp [capture, hen, hcr, overwriteEventsOf, himg]
    · exact ⟨mkScreenshotRecord env (resolvedPatternData forError opts st.patternData)
        (resolvedScreenshotPath c env forError opts st.patternData) (some img)
        (getThumbnailPath (resolvedScreenshotPath c env forError opts st.patternData)) forError,
        by simp [capture, hen, hcr, himg], rfl⟩

/-- Closed instance of `c6_crop_collaborator_unconditional`: the cropper
returns image 9, the staged file is overwritten with it before the final
read-back, and the record carries image 9. -/
theorem c6_crop_collaborator_unconditional_witness :
    (∃ pre post, (capture cfgW envCrop false {} stW).events =
      pre ++ CaptureEvent.cropCall none none "tmp/s1" none ::
        CaptureEvent.writePng "tmp/s1" 9 :: CaptureEvent.readFile "tmp/s1" :: post) ∧
    ∃ rec, (capture cfgW envCrop false {} stW).state.screenshots = stW.screenshots ++ [rec] ∧
      rec.screenshotData = some 9 := by
  have h := (c6_crop_collaborator_unconditional cfgW envCrop false {} stW (by decide) rfl).2 9 rfl
  exact ⟨h.1, h.2⟩

theorem enqueuedIn_append (t u : List QEvent) (key : String) :
    enqueuedIn (t ++ u) key = enqueuedIn t key ++ enqueuedIn u key :=
  List.filterMap_append t u _

theorem enqueuedAll_append (t u : List QEvent) :
    enqueuedAll (t ++ u) = enqueuedAll t ++ enqueuedAll u :=
  List.filterMap_append t u _

theorem finishedIn_append (t u : List QEvent) :
    finishedIn (t ++ u) = finishedIn t ++ finishedIn u :=
  List.filterMap_append t u _

theorem mem_enqueuedIn {t : List QEvent} {key : String} {op : ℕ} :
    op ∈ enqueuedIn t key ↔ ∃ w, QEvent.enqueue op key w ∈ t := by
  induction t with
  | nil => simp [enqueuedIn]
  | cons e t ih =>
      cases e with
      | enqueue op' k' w' =>
          by_cases hk : k' = key
          · subst hk
            simp only [enqueuedIn] at ih
            simp [enqueuedIn, List.filterMap_cons, ih]
            cases w' <;> aesop
          · simp only [enqueuedIn] at ih
            simp [enqueuedIn, List.filterMap_cons, hk, ih]
            cases w' <;> aesop
      | start op' k' =>
          simp only [enqueuedIn] at ih
          simp [enqueuedIn, List.filterMap_cons, ih]
      | finish op' k' =>
          simp only [enqueuedIn] at ih
          simp [enqueuedIn, List.filterMap_cons, ih]

theorem mem_enqueuedAll {t : List QEvent} {op : ℕ} :
    op ∈ enqueuedAll t ↔ ∃ key w, QEvent.enqueue op key w ∈ t := by
  induction t with
  | nil => simp [enqueuedAll]
  | cons e t ih =>
      cases e with
      | enqueue op' k' w' =>
          simp only [enqueuedAll] at ih
          simp [enqueuedAll, List.filterMap_cons, ih]
          cases w' <;> aesop
      | start op' k' =>
          simp only [enqueuedAll] at ih
          simp [enqueuedAll, List.filterMap_cons, ih]
      | finish op' k' =>
          simp only [enqueuedAll] at ih
          simp [enqueuedAll, List.filterMap_cons, ih]

theorem mem_finishedIn {t : List QEvent} {op : ℕ} :
    op ∈ finishedIn t ↔ ∃ key, QEvent.finish op key ∈ t := by
  induction t with
  | nil => simp [finishedIn]
  | cons e t ih =>
      cases e with
      | enqueue op' k' w' =>
          simp only [finishedIn] at ih
          simp [finishedIn, List.filterMap_cons, ih]
      | start op' k' =>
          simp only [finishedIn] at ih
          simp [finishedIn, List.filterMap_cons, ih]
      | finish op' k' =>
          simp only [finishedIn] at ih
          simp [finishedIn, List.filterMap_cons, ih]
          aesop

theorem enqueuedIn_sublist (t : List QEvent) (key : String) :
    (enqueuedIn t key).Sublist (enqueuedAll t) := by
  induction t with
  | nil => simp [enqueuedIn, enqueuedAll]
  | cons e t ih =>
      cases e with
      | enqueue op' k' w' =>
          simp only [enqueuedIn, enqueuedAll, List.filterMap_cons] at ih ⊢
          by_cases hk : k' = key
          · rw [if_pos hk]
            exact ih.cons₂ op'
          · rw [if_neg hk]
            exact ih.cons op'
      | start op' k' =>
          simp only [enqueuedIn, enqueuedAll, List.filterMap_cons] at ih ⊢
          exact ih
      | finish op' k' =>
          simp only [enqueuedIn, enqueuedAll, List.filterMap_cons] at ih ⊢
          exact ih

@[simp] theorem enqueuedIn_snoc_enqueue (t : List QEvent) (op : ℕ) (k : String) (w : Bool) (key : String) :
    enqueuedIn (t ++ [QEvent.enqueue op k w]) key =
      enqueuedIn t key ++ if k = key then [op] else [] := by
  rw [enqueuedIn_append]
  by_cases hk : k = key <;> simp [enqueuedIn, hk]

@[simp] theorem enqueuedIn_snoc_start (t : List QEvent) (op : ℕ) (k key : String) :
    enqueuedIn (t ++ [QEvent.start op k]) key = enqueuedIn t key := by
  rw [enqueuedIn_append]
  simp [enqueuedIn]

@[simp] theorem enqueuedIn_snoc_finish (t : List QEvent) (op : ℕ) (k key : String) :
    enqueuedIn (t ++ [QEvent.finish op k]) key = enqueuedIn t key := by
  rw [enqueuedIn_append]
  simp [enqueuedIn]

@[simp] theorem enqueuedAll_snoc_enqueue (t : List QEvent) (op : ℕ) (k : String) (w : Bool) :
    enqueuedAll (t ++ [QEvent.enqueue op k w]) = enqueuedAll t ++ [op] := by
  rw [enqueuedAll_append]
  simp [enqueuedAll]

@[simp] theorem enqueuedAll_snoc_start (t : List QEvent) (op : ℕ) (k : String) :
    enqueuedAll (t ++ [QEvent.start op k]) = enqueuedAll t := by
  rw [enqueuedAll_append]
  simp [enqueuedAll]

@[simp] theorem enqueuedAll_snoc_finish (t : List QEvent) (op : ℕ) (k : String) :
    enqueuedAll (t ++ [QEvent.finish op k]) = enqueuedAll t := by
  rw [enqueuedAll_append]
  simp [enqueuedAll]

@[simp] theorem finishedIn_snoc_enqueue (t : List QEvent) (op : ℕ) (k : String) (w : Bool) :
    finishedIn (t ++ [QEvent.enqueue op k w]) = finishedIn t := by
  rw [finishedIn_append]
  simp [finishedIn]

@[simp] theorem finishedIn_snoc_start (t : List QEvent) (op : ℕ) (k : String) :
    finishedIn (t ++ [QEvent.start op k]) = finishedIn t := by
  rw [finishedIn_append]
  simp [finishedIn]

@[simp] theorem finishedIn_snoc_finish (t : List QEvent) (op : ℕ) (k : String) :
    finishedIn (t ++ [QEvent.finish op k]) = finishedIn t ++ [op] := by
  rw [finishedIn_append]
  simp [finishedIn]

theorem qtrace_inv {t : List QEvent} {s : QueueState} (h : QTrace t s) : QueueInv t s := by
  induction h with
  | nil =>
      refine ⟨fun key => rfl, fun op key => ?_, by simp [enqueuedAll], by simp⟩
      simp [QueueState.init, enqueuedIn]
  | @snoc t s e s' htr hstep ih =>
      obtain ⟨hq, hkey, hnd, hfin⟩ := ih
      cases hstep with
      | enqueue op key hfresh =>
          have hnotenq : ∀ k, op ∉ enqueuedIn t k := by
            intro k hmem
            have := (hkey op k).2 hmem
            rw [hfresh] at this
            exact Option.noConfusion this
          have hopnf : op ∉ finishedIn t := by
            intro hf
            obtain ⟨k', hk'⟩ := mem_finishedIn.1 hf
            exact hnotenq k' (hfin op k' hk')
          have hopall : op ∉ enqueuedAll t := by
            intro hall
            obtain ⟨k, w, hw⟩ := mem_enqueuedAll.1 hall
            exact hnotenq k (mem_enqueuedIn.2 ⟨w, hw⟩)
          refine ⟨?_, ?_, ?_, ?_⟩
          · intro k0
            simp only [enqueueOp]
            by_cases hk : k0 = key
            · subst hk
              rw [if_pos rfl]
              simp only [enqueuedIn_snoc_enqueue, finishedIn_snoc_enqueue, if_pos rfl]
              rw [List.filter_append, hq k0]
              simp [hopnf]
            · rw [if_neg hk]
              have hk' : ¬key = k0 := fun h => hk h.symm
              simp only [enqueuedIn_snoc_enqueue, finishedIn_snoc_enqueue, if_neg hk']
              rw [List.filter_append, hq k0]
              simp
          · intro o k0
            simp only [enqueueOp]
            by_cases ho : o = op
            · subst ho
              rw [if_pos rfl]
              simp only [enqueuedIn_snoc_enqueue, List.mem_append, Option.some.injEq]
              constructor
              · rintro rfl
                simp
              · rintro (hmem | hmem)
                · exact absurd hmem (hnotenq k0)
                · by_cases hk : key = k0
                  · exact hk
                  · rw [if_neg hk] at hmem
                    simp at hmem
            · rw [if_neg ho]
              simp only [enqueuedIn_snoc_enqueue, List.mem_append]
              rw [hkey o k0]
              constructor
              · exact fun hm => Or.inl hm
              · rintro (hm | hm)
                · exact hm
                · by_cases hk : key = k0
                  · rw [if_pos hk] at hm
                    simp at hm
                    exact absurd hm ho
                  · rw [if_neg hk] at hm
                    simp at hm
          · simp only [enqueuedAll_snoc_enqueue, List.nodup_append]
            exact ⟨hnd, List.nodup_singleton op,
              fun a ha hmem => hopall ((List.mem_singleton.1 hmem) ▸ ha)⟩
          · intro o k0 hmem
            rcases List.mem_append.1 hmem with hm | hm
            · have := hfin o k0 hm
              simp only [enqueuedIn_snoc_enqueue, List.mem_append]
              exact Or.inl this
            · simp at hm
      | start op key hhead hns =>
          refine ⟨?_, ?_, ?_, ?_⟩
          · intro k0
            show s.queues k0 = _
            simp only [enqueuedIn_snoc_start, finishedIn_snoc_start]
            exact hq k0
          · intro o k0
            show s.keyOf o = some k0 ↔ _
            simp only [enqueuedIn_snoc_start]
            exact hkey o k0
          · simpa only [enqueuedAll_snoc_start] using hnd
          · intro o k0 hmem
            rcases List.mem_append.1 hmem with hm | hm
            · simpa only [enqueuedIn_snoc_start] using hfin o k0 hm
            · simp at hm
      | finish op key hhead hst =>
          obtain ⟨qs, hl⟩ : ∃ qs, s.queues key = op :: qs := by
            cases hsq : s.queues key with
            | nil => rw [hsq] at hhead; exact absurd hhead (by simp)
            | cons q rest =>
                rw [hsq] at hhead
                simp only [List.head?_cons, Option.some.injEq] at hhead
                exact ⟨rest, by rw [hhead]⟩
          have hfilter_eq : (enqueuedIn t key).filter (fun o => o ∉ finishedIn t) = op :: qs := by
            rw [← hq key]; exact hl
          have hopenq : op ∈ enqueuedIn t key := by
            have : op ∈ (enqueuedIn t key).filter fun o => o ∉ finishedIn t := by
              rw [hfilter_eq]; exact List.mem_cons_self _ _
            exact List.mem_of_mem_filter this
          have hopkey : s.keyOf op = some key := (hkey op key).2 hopenq
          have hnodup_filter : ((enqueuedIn t key).filter fun o => o ∉ finishedIn t).Nodup :=
            ((enqueuedIn_sublist t key).nodup hnd).filter _
          have hopqs : op ∉ qs := by
            rw [hfilter_eq] at hnodup_filter
            exact (List.nodup_cons.1 hnodup_filter).1
          have hsplit : ∀ l : List ℕ,
              (l.filter fun o => o ∉ finishedIn t ++ [op]) =
                ((l.filter fun o => o ∉ finishedIn t).filter fun o => o ≠ op) := by
            intro l
            rw [List.filter_filter]
            apply List.filter_congr
            intro a _
            simp [List.mem_append, not_or, Bool.and_comm]
          refine ⟨?_, ?_, ?_, ?_⟩
          · intro k0
            simp only [finishOp]
            by_cases hk : k0 = key
            · subst hk
              rw [if_pos rfl]
              simp only [enqueuedIn_snoc_finish, finishedIn_snoc_finish]
              rw [hsplit, hfilter_eq, hl]
              have hqs_filter : List.filter (fun o => !decide (o = op)) qs = qs :=
                List.filter_eq_self.2 fun a ha => by
                  simpa using fun hao : a = op => hopqs (hao ▸ ha)
              simp [hqs_filter]
            · rw [if_neg hk]
              simp only [enqueuedIn_snoc_finish, finishedIn_snoc_finish]
              rw [hsplit, ← hq k0, List.filter_eq_self.2]
              intro a ha
              simp only [ne_eq, decide_eq_true_eq]
              intro hao
              subst hao
              have : a ∈ enqueuedIn t k0 := by
                rw [hq k0] at ha
                exact List.mem_of_mem_filter ha
              have := (hkey a k0).2 this
              rw [hopkey] at this
              exact hk (Option.some.inj this).symm
          · intro o k0
            show s.keyOf o = some k0 ↔ _
            simp only [enqueuedIn_snoc_finish]
            exact hkey o k0
          · simpa only [enqueuedAll_snoc_finish] using hnd
          · intro o k0 hmem
            simp only [enqueuedIn_snoc_finish]
            rcases List.mem_append.1 hmem with hm | hm
            · exact hfin o k0 hm
            · simp only [List.mem_singleton] at hm
              rcases QEvent.finish.inj hm with ⟨rfl, rfl⟩
              exact hopenq

theorem qtrace_take {t : List QEvent} {s : QueueState} (h : QTrace t s) :
    ∀ u v : List QEvent, t = u ++ v → ∃ s', QTrace u s' := by
  induction h with
  | nil =>
      intro u v huv
      have hu : u = [] := by
        cases u with
        | nil => rfl
        | cons a l => simp at huv
      subst hu
      exact ⟨QueueState.init, QTrace.nil⟩
  | @snoc t s e s' htr hstep ih =>
      intro u v huv
      rcases List.eq_nil_or_concat v with rfl | ⟨v', e', rfl⟩
      · rw [List.append_nil] at huv
        exact ⟨s', huv ▸ QTrace.snoc htr hstep⟩
      · have h2 : t ++ [e] = (u ++ v') ++ [e'] := by
          rw [huv]
          simp [List.concat_eq_append]
        obtain ⟨h3, -⟩ := List.append_inj' h2 rfl
        exact ih u v' h3

theorem qtrace_snoc_inv {u : List QEvent} {e : QEvent} {s₂ : QueueState}
    (h : QTrace (u ++ [e]) s₂) : ∃ s₁, QTrace u s₁ ∧ QStep s₁ e s₂ := by
  generalize hw : u ++ [e] = w at h
  cases h with
  | nil => exact absurd hw (by simp)
  | @snoc t s e' s' htr hstep =>
      obtain ⟨h1, h2⟩ := List.append_inj' hw rfl
      subst h1
      have he : e = e' := by simpa using h2
      subst he
      exact ⟨s, htr, hstep⟩

theorem qtrace_extract {t : List QEvent} {s : QueueState} (h : QTrace t s)
    {u : List QEvent} {e : QEvent} {v : List QEvent} (ht : t = u ++ e :: v) :
    ∃ s₁ s₂, QTrace u s₁ ∧ QStep s₁ e s₂ := by
  have h2 : t = (u ++ [e]) ++ v := by rw [ht]; simp
  obtain ⟨s₂, hpre⟩ := qtrace_take h (u ++ [e]) v h2
  obtain ⟨s₁, htr, hstep⟩ := qtrace_snoc_inv hpre
  exact ⟨s₁, s₂, htr, hstep⟩

theorem qtrace_fifo {t : List QEvent} {s : QueueState} (h : QTrace t s)
    {u v u₁ u₂ : List QEvent} {a b : ℕ} {key : String} {wa wb : Bool}
    (ht : t = u ++ QEvent.start b key :: v)
    (hu : u = u₁ ++ QEvent.enqueue a key wa :: u₂)
    (hb : QEvent.enqueue b key wb ∈ u₂) :
    QEvent.finish a key ∈ u := by
  obtain ⟨s₁, s₂, h₁, hstep⟩ := qtrace_extract h ht
  have hhead : (s₁.queues key).head? = some b := by
    cases hstep
    rename_i h1 h2
    first
      | exact h1
      | exact h2
  obtain ⟨hq, hkey, hnd, hfin⟩ := qtrace_inv h₁
  have henq : enqueuedIn u key = enqueuedIn u₁ key ++ a :: enqueuedIn u₂ key := by
    rw [hu,
      show u₁ ++ QEvent.enqueue a key wa :: u₂ = u₁ ++ ([QEvent.enqueue a key wa] ++ u₂) from
        by simp,
      enqueuedIn_append, enqueuedIn_append]
    simp [enqueuedIn]
  have hbmem : b ∈ enqueuedIn u₂ key := mem_enqueuedIn.2 ⟨wb, hb⟩
  have hnodup : (enqueuedIn u key).Nodup := (enqueuedIn_sublist u key).nodup hnd
  have hab : a ≠ b := by
    intro hab
    subst hab
    rw [henq] at hnodup
    have hcons : (a :: enqueuedIn u₂ key).Nodup := (List.nodup_append.1 hnodup).2.1
    exact (List.nodup_cons.1 hcons).1 hbmem
  have hafin : a ∈ finishedIn u := by
    by_contra hnf
    have hpa : (decide (a ∉ finishedIn u)) = true := by simpa using hnf
    have hqk := hq key
    rw [henq, List.filter_append, List.filter_cons, if_pos hpa] at hqk
    cases hX : (enqueuedIn u₁ key).filter (fun o => decide (o ∉ finishedIn u)) with
    | nil =>
        rw [hX, List.nil_append] at hqk
        rw [hqk] at hhead
        simp only [List.head?_cons, Option.some.injEq] at hhead
        exact hab hhead
    | cons x xs =>
        rw [hX] at hqk
        rw [hqk] at hhead
        have hxb : x = b := by simpa using hhead
        have hbX : b ∈ enqueuedIn u₁ key := by
          have hxf : x ∈ (enqueuedIn u₁ key).filter (fun o => decide (o ∉ finishedIn u)) := by
            rw [hX]
            exact List.mem_cons_self _ _
          exact hxb ▸ List.mem_of_mem_filter hxf
        rw [henq] at hnodup
        have hdisj := List.disjoint_of_nodup_append hnodup
        exact hdisj hbX (List.mem_cons_of_mem a hbmem)
  obtain ⟨key', hk'⟩ := mem_finishedIn.1 hafin
  have hm1 : a ∈ enqueuedIn u key' := hfin a key' hk'
  have hm2 : a ∈ enqueuedIn u key := by
    rw [henq]
    exact List.mem_append_right _ (List.mem_cons_self _ _)
  have e1 := (hkey a key').2 hm1
  have e2 := (hkey a key).2 hm2
  rw [e1] at e2
  have hkk : key' = key := Option.some.inj e2
  subst hkk
  exact hk'

theorem qtrace_warning {t : List QEvent} {s : QueueState} (h : QTrace t s)
    {u v : List QEvent} {op : ℕ} {key : String} {w : Bool}
    (ht : t = u ++ QEvent.enqueue op key w :: v) :
    w = true ↔ ∃ a, a ∈ enqueuedIn u key ∧ a ∉ finishedIn u := by
  obtain ⟨s₁, s₂, h₁, hstep⟩ := qtrace_extract h ht
  obtain ⟨hq, -, -, -⟩ := qtrace_inv h₁
  cases hstep with
  | enqueue hfresh =>
      rw [isInQueue, hq key]
      constructor
      · intro hne
        have hfe : (enqueuedIn u key).filter (fun o => decide (o ∉ finishedIn u)) ≠ [] := by
          intro hnil
          rw [hnil] at hne
          simp at hne
        obtain ⟨x, hx⟩ := List.exists_mem_of_ne_nil _ hfe
        exact ⟨x, List.mem_of_mem_filter hx, by simpa using List.of_mem_filter hx⟩
      · rintro ⟨x, hx1, hx2⟩
        have hxf : x ∈ (enqueuedIn u key).filter (fun o => decide (o ∉ finishedIn u)) :=
          List.mem_filter.2 ⟨hx1, by simpa using hx2⟩
        have hfe : (enqueuedIn u key).filter (fun o => decide (o ∉ finishedIn u)) ≠ [] := by
          intro hnil
          rw [hnil] at hxf
          simp at hxf
        simpa [List.isEmpty_iff] using hfe

/-- C1: under one destination-path key, queued pipelines run strictly one
at a time in submission order — in every execution, if `a` was enqueued
under a key before `b` was, then `a`'s work has finished before `b`'s
work starts; the collision warning is emitted exactly for an invocation
whose key already has a queued or in-flight operation at enqueue time
(hence for the 2nd through Nth of N concurrent same-key invocations);
and operations under distinct keys are not ordered relative to each
other — both completion orders are reachable. -/
theorem c1_same_key_serialization :
    (∀ (t : List QEvent) (s : QueueState), QTrace t s →
      ∀ (u v u₁ u₂ : List QEvent) (a b : ℕ) (key : String) (wa wb : Bool),
        t = u ++ QEvent.start b key :: v →
        u = u₁ ++ QEvent.enqueue a key wa :: u₂ →
        QEvent.enqueue b key wb ∈ u₂ →
        QEvent.finish a key ∈ u) ∧
    (∀ (t : List QEvent) (s : QueueState), QTrace t s →
      ∀ (u v : List QEvent) (op : ℕ) (key : String) (w : Bool),
        t = u ++ QEvent.enqueue op key w :: v →
        (w = true ↔ ∃ a, a ∈ enqueuedIn u key ∧ a ∉ finishedIn u)) ∧
    (∃ s, QTrace
      [QEvent.enqueue 0 "p" false, QEvent.enqueue 1 "q" false,
       QEvent.start 0 "p", QEvent.finish 0 "p", QEvent.start 1 "q", QEvent.finish 1 "q"] s) ∧
    (∃ s, QTrace
      [QEvent.enqueue 0 "p" false, QEvent.enqueue 1 "q" false,
       QEvent.start 1 "q", QEvent.finish 1 "q", QEvent.start 0 "p", QEvent.finish 0 "p"] s) := by
  refine ⟨fun t s h u v u₁ u₂ a b key wa wb ht hu hb => qtrace_fifo h ht hu hb,
    fun t s h u v op key w ht => qtrace_warning h ht, ?_, ?_⟩
  · exact ⟨_, QTrace.snoc
      (QTrace.snoc
        (QTrace.snoc
          (QTrace.snoc
            (QTrace.snoc
              (QTrace.snoc QTrace.nil (QStep.enqueue QueueState.init 0 "p" (by decide)))
              (QStep.enqueue _ 1 "q" (by decide)))
            (QStep.start _ 0 "p" (by decide) (by decide)))
          (QStep.finish _ 0 "p" (by decide) (by decide)))
        (QStep.start _ 1 "q" (by decide) (by decide)))
      (QStep.finish _ 1 "q" (by decide) (by decide))⟩
  · exact ⟨_, QTrace.snoc
      (QTrace.snoc
        (QTrace.snoc
          (QTrace.snoc
            (QTrace.snoc
              (QTrace.snoc QTrace.nil (QStep.enqueue QueueState.init 0 "p" (by decide)))
              (QStep.enqueue _ 1 "q" (by decide)))
            (QStep.start _ 1 "q" (by decide) (by decide)))
          (QStep.finish _ 1 "q" (by decide) (by decide)))
        (QStep.start _ 0 "p" (by decide) (by decide)))
      (QStep.finish _ 0 "p" (by decide) (by decide))⟩

/-- Closed instance of `c1_same_key_serialization`: in the concrete
execution where operation 5 and then operation 7 are enqueued under key
`k` while 5 is still pending, operation 5's finish precedes operation 7's
start, and the second enqueue carried the collision warning because the
key was occupied. -/
theorem c1_same_key_serialization_witness :
    QEvent.finish 5 "k" ∈
      [QEvent.enqueue 5 "k" false, QEvent.start 5 "k", QEvent.enqueue 7 "k" true,
       QEvent.finish 5 "k"] ∧
    (true = true ↔ ∃ a, a ∈ enqueuedIn [QEvent.enqueue 5 "k" false, QEvent.start 5 "k"] "k" ∧
      a ∉ finishedIn [QEvent.enqueue 5 "k" false, QEvent.start 5 "k"]) := by
  have h6 :=
    QTrace.snoc
      (QTrace.snoc
        (QTrace.snoc
          (QTrace.snoc
            (QTrace.snoc
              (QTrace.snoc QTrace.nil (QStep.enqueue QueueState.init 5 "k" (by decide)))
              (QStep.start _ 5 "k" (by decide) (by decide)))
            (QStep.enqueue _ 7 "k" (by decide)))
          (QStep.finish _ 5 "k" (by decide) (by decide)))
        (QStep.start _ 7 "k" (by decide) (by decide)))
      (QStep.finish _ 7 "k" (by decide) (by decide))
  constructor
  · exact c1_same_key_serialization.1 _ _ h6
      [QEvent.enqueue 5 "k" false, QEvent.start 5 "k", QEvent.enqueue 7 "k" true,
       QEvent.finish 5 "k"]
      [QEvent.finish 7 "k"] []
      [QEvent.start 5 "k", QEvent.enqueue 7 "k" true, QEvent.finish 5 "k"]
      5 7 "k" false true rfl rfl (by decide)
  · exact c1_same_key_serialization.2.1 _ _ h6
      [QEvent.enqueue 5 "k" false, QEvent.start 5 "k"]
      [QEvent.finish 5 "k", QEvent.start 7 "k", QEvent.finish 7 "k"] 7 "k" true rfl

end Screenshots
